import Mathlib

set_option maxRecDepth 100000

/-!
Verification development for the PlexToolkit title-resolution and collection
engine.  The repository contains two parallel implementations of the core:
the legacy inline one in `main.py` and the refactored one in the `toolkit/`
package (`toolkit/utils.py`, `toolkit/ops.py`,
`toolkit/services/collection_manager.py`).  Both are embedded below where
they differ; functions carrying a `_main` suffix come from `main.py`, the
unsuffixed ones from the `toolkit` package.

Strings are modelled over ASCII character classes: Python's `re` classes
`\w`, `\s`, `\d` and `str.lower()` are embedded with their ASCII meaning,
which is faithful for the movie-title inputs the program handles.
-/

/-- Python `\w` character class (ASCII model): alphanumeric or underscore,
written out as the ASCII code ranges of 0-9, A-Z, a-z and the underscore. -/
def pyIsWordChar (c : Char) : Bool :=
  decide ((48 ≤ c.toNat ∧ c.toNat ≤ 57) ∨ (65 ≤ c.toNat ∧ c.toNat ≤ 90) ∨
    (97 ≤ c.toNat ∧ c.toNat ≤ 122) ∨ c.toNat = 95)

/-- Python `\s` character class (ASCII model): the codes of space, tab,
newline, carriage return, vertical tab and form feed. -/
def pyIsSpaceChar (c : Char) : Bool :=
  decide (c.toNat = 32 ∨ c.toNat = 9 ∨ c.toNat = 10 ∨ c.toNat = 13 ∨
    c.toNat = 11 ∨ c.toNat = 12)

/-- Python `str.lower()` on one character (ASCII model). -/
def pyLowerChar (c : Char) : Char :=
  if 65 ≤ c.toNat ∧ c.toNat ≤ 90 then Char.ofNat (c.toNat + 32) else c

/-- Python `str.strip()`: drop leading and trailing whitespace. -/
def pyStrip (l : List Char) : List Char :=
  ((l.dropWhile pyIsSpaceChar).reverse.dropWhile pyIsSpaceChar).reverse

/-- Python `str.split()` with no separator: the maximal whitespace-free
words of the string, in order. -/
def pyWords : List Char → List (List Char)
  | [] => []
  | c :: cs =>
    if pyIsSpaceChar c then pyWords cs
    else
      match cs with
      | [] => [[c]]
      | d :: _ =>
        if pyIsSpaceChar d then [c] :: pyWords cs
        else
          match pyWords cs with
          | [] => [[c]]
          | w :: rest => (c :: w) :: rest

/-- Python `" ".join(ws)`. -/
def joinSpace : List (List Char) → List Char
  | [] => []
  | [w] => w
  | w :: ws => w ++ ' ' :: joinSpace ws

/-- Core of `toolkit/utils.py` `normalize_title` (lines 165-170):
`re.sub(r"[^\w\s]", "", title).lower()` then `" ".join(cleaned.split())`.
This normalizer does no abbreviation expansion and no leading-article
stripping. -/
def normalizeTitleCore (l : List Char) : List Char :=
  if l = [] then []
  else joinSpace (pyWords ((l.filter fun c => pyIsWordChar c || pyIsSpaceChar c).map pyLowerChar))

/-- `toolkit/utils.py` `normalize_title` on `String`. -/
def normalize_title (s : String) : String :=
  String.mk (normalizeTitleCore s.data)

example : normalize_title "The Matrix!" = "the matrix" := by decide
example : normalize_title "Spider-Man: No Way Home" = "spiderman no way home" := by decide
example : normalize_title "  Messy   Title  " = "messy title" := by decide

/-- Decimal value of a list of ASCII digits (used for the 4-digit year). -/
def digitsToNat (l : List Char) : Nat :=
  l.foldl (fun acc c => acc * 10 + (c.toNat - 48)) 0

/-- Core of `toolkit/utils.py` `extract_title_and_year` (lines 156-162): the
regex `^(.*?)\s*\((\d{4})\)$` on the stripped input.  The anchored pattern
matches exactly when the stripped string ends in a parenthesized group of
four digits; the title is everything before that group, stripped. -/
def extractCore (l : List Char) : List Char × Option Int :=
  let t := pyStrip l
  let n := t.length
  if 6 ≤ n ∧
      t.getD (n - 6) ' ' = '(' ∧
      (t.drop (n - 5)).take 4 = ((t.drop (n - 5)).take 4).filter Char.isDigit ∧
      t.getD (n - 1) ' ' = ')' then
    (pyStrip (t.take (n - 6)), some (Int.ofNat (digitsToNat ((t.drop (n - 5)).take 4))))
  else
    (t, none)

/-- `toolkit/utils.py` `extract_title_and_year` on `String`. -/
def extract_title_and_year (s : String) : String × Option Int :=
  let p := extractCore s.data
  (String.mk p.1, p.2)

example : extract_title_and_year "The Matrix (1999)" = ("The Matrix", some 1999) := by decide
example : extract_title_and_year "Avatar" = ("Avatar", none) := by decide
example : extract_title_and_year "Title (With Parentheses) (2023)" =
    ("Title (With Parentheses)", some 2023) := by decide
example : extract_title_and_year "   Spaced Out (2001)   " = ("Spaced Out", some 2001) := by decide
example : extract_title_and_year "Alien (0000)" = ("Alien", some 0) := by decide

/-- List-level startsWith test (first argument is the candidate left part). -/
def startsWithL : List Char → List Char → Bool
  | [], _ => true
  | _ :: _, [] => false
  | a :: as, b :: bs => a = b && startsWithL as bs

/-- One pass of `re.sub(r"\b<abbr>\.?\b", repl, t)` as used by `main.py`
`normalize_title` (lines 852-856).  The scan moves left to right; at a
position the pattern matches when the previous character is not a word
character, the abbreviation letters follow, and the trailing word boundary
holds - with the optional dot consumed greedily only when a word character
follows it.  Fuel is the input length (every step consumes one character or
a whole match). -/
def subAbbrevAux (abbr repl : List Char) : Nat → Bool → List Char → List Char
  | 0, _, l => l
  | _ + 1, _, [] => []
  | fuel + 1, prevIsWord, c :: cs =>
    if !prevIsWord && startsWithL abbr (c :: cs) then
      match (c :: cs).drop abbr.length with
      | '.' :: e :: r2 =>
        if pyIsWordChar e then repl ++ subAbbrevAux abbr repl fuel false (e :: r2)
        else repl ++ subAbbrevAux abbr repl fuel true ('.' :: e :: r2)
      | '.' :: [] => repl ++ subAbbrevAux abbr repl fuel true ['.']
      | [] => repl
      | d :: rest =>
        if !pyIsWordChar d then repl ++ subAbbrevAux abbr repl fuel true (d :: rest)
        else c :: subAbbrevAux abbr repl fuel (pyIsWordChar c) cs
    else c :: subAbbrevAux abbr repl fuel (pyIsWordChar c) cs

/-- `re.sub(r"\b<abbr>\.?\b", repl, t)` over a whole string. -/
def expandAbbrev (abbr repl l : List Char) : List Char :=
  subAbbrevAux abbr repl (l.length + 1) false l

/-- Core of `main.py` `normalize_title` line 860:
`re.sub(r"^(the|a|an)\s+", "", t)` - strip one leading article together
with the whitespace run after it.  The three alternatives are mutually
exclusive, so alternation order does not matter. -/
def stripLeadingArticle (l : List Char) : List Char :=
  if startsWithL ['t', 'h', 'e'] l && pyIsSpaceChar (l.getD 3 'x') then
    (l.drop 3).dropWhile pyIsSpaceChar
  else if startsWithL ['a', 'n'] l && pyIsSpaceChar (l.getD 2 'x') then
    (l.drop 2).dropWhile pyIsSpaceChar
  else if startsWithL ['a'] l && pyIsSpaceChar (l.getD 1 'x') then
    (l.drop 1).dropWhile pyIsSpaceChar
  else l

/-- Core of `main.py` `normalize_title` (lines 839-862): lower-case, expand
the five abbreviations, strip punctuation, strip one leading article,
collapse whitespace.  (`re.sub(r"\s+", " ", t).strip()` equals joining the
whitespace-separated words with single spaces.) -/
def normalizeMainCore (l : List Char) : List Char :=
  if l = [] then []
  else
    let t0 := l.map pyLowerChar
    let t1 := expandAbbrev ['d', 'r'] "drive".data t0
    let t2 := expandAbbrev ['s', 't'] "street".data t1
    let t3 := expandAbbrev ['v', 's'] "versus".data t2
    let t4 := expandAbbrev ['p', 't'] "part".data t3
    let t5 := expandAbbrev ['v', 'o', 'l'] "volume".data t4
    let t6 := t5.filter fun c => pyIsWordChar c || pyIsSpaceChar c
    joinSpace (pyWords (stripLeadingArticle t6))

/-- `main.py` `normalize_title` on `String`. -/
def normalize_title_main (s : String) : String :=
  String.mk (normalizeMainCore s.data)

example : normalize_title_main "The Matrix!" = "matrix" := by decide
example : normalize_title_main "St. Louis Blues" = "street louis blues" := by decide
example : normalize_title_main "The The Matrix" = "the matrix" := by decide
example : normalize_title_main "the matrix" = "matrix" := by decide
example : normalize_title_main "Dr. Strange" = "drive strange" := by decide
example : normalize_title "St. Louis Blues" = "st louis blues" := by decide

/-- Length of the run of consecutive equal characters of `a` and `b` ending
at positions `(i, j)` (zero when `a[i]` and `b[j]` differ or are absent). -/
def runLen (a b : List Char) : Nat → Nat → Nat
  | 0, j => if a.get? 0 = b.get? j ∧ (a.get? 0).isSome then 1 else 0
  | i + 1, 0 => if a.get? (i + 1) = b.get? 0 ∧ (a.get? (i + 1)).isSome then 1 else 0
  | i + 1, j + 1 =>
    if a.get? (i + 1) = b.get? (j + 1) ∧ (a.get? (i + 1)).isSome then runLen a b i j + 1
    else 0

/-- `difflib.SequenceMatcher.find_longest_match` on the window
`a[alo:ahi]`, `b[blo:bhi]` with no junk (titles are far below the autojunk
threshold of 200 characters): the longest common substring of the window,
tie-broken to the candidate found first when scanning `i` then `j`
ascending, exactly like the `j2len` loop.  Returns `(i, j, size)`. -/
def findLongestMatch (a b : List Char) (alo ahi blo bhi : Nat) : Nat × Nat × Nat :=
  let pairs := (List.range' alo (ahi - alo)).flatMap
    fun i => (List.range' blo (bhi - blo)).map fun j => (i, j)
  let st := pairs.foldl
    (fun (st : Nat × Nat × Nat) p =>
      let k := min (runLen a b p.1 p.2) (min (p.1 - alo + 1) (p.2 - blo + 1))
      if st.2.2 < k then (p.1 + 1 - k, p.2 + 1 - k, k) else st)
    (alo, blo, 0)
  st

/-- Total size of the matching blocks of `difflib.SequenceMatcher
.get_matching_blocks`: the recursion of `find_longest_match` over the
sub-windows left and right of each found block.  Fuel bounds the recursion
depth; each call strictly shrinks the window, so `|a| + |b| + 1` always
suffices. -/
def matchedAux (a b : List Char) : Nat → Nat → Nat → Nat → Nat → Nat
  | 0, _, _, _, _ => 0
  | fuel + 1, alo, ahi, blo, bhi =>
    let m := findLongestMatch a b alo ahi blo bhi
    if m.2.2 = 0 then 0
    else
      m.2.2 + (if alo < m.1 ∧ blo < m.2.1 then matchedAux a b fuel alo m.1 blo m.2.1 else 0)
            + (if m.1 + m.2.2 < ahi ∧ m.2.1 + m.2.2 < bhi then
                 matchedAux a b fuel (m.1 + m.2.2) ahi (m.2.1 + m.2.2) bhi else 0)

/-- Total matched characters of `difflib.SequenceMatcher(None, a, b)`. -/
def matchedTotal (a b : List Char) : Nat :=
  matchedAux a b (a.length + b.length + 1) 0 a.length 0 b.length

/-- The pair `(M, T)` representing `SequenceMatcher.ratio() = 2*M/T`
(`T = len(a) + len(b)`; `ratio()` is defined as `1.0` when `T = 0`). -/
def ratioPair (a b : List Char) : Nat × Nat :=
  (matchedTotal a b, a.length + b.length)

/-- The ratio `2*M/T` as an exact fraction (numerator, denominator). -/
def ratioFrac (p : Nat × Nat) : Nat × Nat :=
  if p.2 = 0 then (1, 1) else (2 * p.1, p.2)

/-- `ratio > 0.85`, compared exactly: `2*M/T > 17/20`.  (The float rounding
of CPython never flips this comparison at the denominators reachable by
movie titles, since `2*M/T` is at least `1/(20*T)` away from `17/20`
whenever they differ.) -/
def ratioGtPoint85 (p : Nat × Nat) : Bool :=
  20 * (ratioFrac p).1 > 17 * (ratioFrac p).2

/-- Comparison `ratio(p) ≥ ratio(q)` by cross multiplication, used for the
similarity sort. -/
def ratioGe (p q : Nat × Nat) : Bool :=
  (ratioFrac p).1 * (ratioFrac q).2 ≥ (ratioFrac q).1 * (ratioFrac p).2

example : matchedTotal "time".data "no time to die".data = 4 := by decide
example : ratioGtPoint85 (ratioPair "alien".data "aliens".data) = true := by decide
example : ratioGtPoint85 (ratioPair "time".data "no time to die".data) = false := by decide

/-- A catalog item as the scorer sees it: `item.title`,
`getattr(item, "year", None)` and `str(getattr(item, "ratingKey", ""))`
(the empty string standing for a missing rating key). -/
structure PlexItem where
  title : String
  year : Option Int
  ratingKey : String
deriving DecidableEq, Repr

/-- The strict-year-mismatch `continue` of `pick_plex_match`
(`toolkit/ops.py` lines 43-49, `main.py` lines 962-968): it fires only when
`search_year and item_year` is truthy in Python - both years present and
nonzero - and the years differ by more than 1. -/
def yearGateReject (sy iy : Option Int) : Bool :=
  match sy, iy with
  | some y, some z => if y ≠ 0 ∧ z ≠ 0 ∧ 1 < (y - z).natAbs then true else false
  | _, _ => false

/-- The `years_match` flag of `pick_plex_match`: both years truthy and
within one year of each other. -/
def yearsMatchFlag (sy iy : Option Int) : Bool :=
  match sy, iy with
  | some y, some z => if y ≠ 0 ∧ z ≠ 0 ∧ (y - z).natAbs ≤ 1 then true else false
  | _, _ => false

/-- The three non-fuzzy title rules of `pick_plex_match`: exact normalized
equality, candidate extends the query at a word boundary, or query extends
the candidate at a word boundary (`toolkit/ops.py` lines 53-57; `main.py`
lines 973-985 spell the boundary out with an explicit length check, which
is the same predicate). -/
def titleMatchB (searchNorm itemNorm : List Char) : Bool :=
  searchNorm == itemNorm
    || startsWithL (searchNorm ++ [' ']) itemNorm
    || startsWithL (itemNorm ++ [' ']) searchNorm

/-- Per-candidate acceptance of `pick_plex_match`'s filtering loop: the
year gate, then the title rules, then the fuzzy fallback guarded by
`years_match` and `ratio > 0.85`. -/
def acceptsItem (searchNorm : List Char) (searchYear : Option Int) (item : PlexItem) : Bool :=
  let itemNorm := normalizeTitleCore item.title.data
  if yearGateReject searchYear item.year then false
  else
    titleMatchB searchNorm itemNorm
      || (yearsMatchFlag searchYear item.year && ratioGtPoint85 (ratioPair searchNorm itemNorm))

/-- Sort key of a candidate: its similarity ratio to the query. -/
def itemRatioKey (searchNorm : List Char) (item : PlexItem) : Nat × Nat :=
  ratioPair searchNorm (normalizeTitleCore item.title.data)

/-- Stable descending insertion: `x` goes after every earlier element whose
key is at least as large.  Folding this over a list reproduces the stable
descending order of Python's `list.sort(key=..., reverse=True)`. -/
def insertDesc (key : PlexItem → Nat × Nat) (x : PlexItem) : List PlexItem → List PlexItem
  | [] => [x]
  | y :: ys => if ratioGe (key y) (key x) then y :: insertDesc key x ys else x :: y :: ys

/-- Stable descending sort by similarity ratio. -/
def sortDesc (key : PlexItem → Nat × Nat) (l : List PlexItem) : List PlexItem :=
  l.foldl (fun acc x => insertDesc key x acc) []

/-- The `good_matches` list of `pick_plex_match` (`toolkit/ops.py` lines
36-76, `main.py` lines 955-1001): parse the raw query, filter the search
results through the year gate and title logic, and rank by similarity
descending (stable). -/
def pick_good_matches (raw : String) (results : List PlexItem) : List PlexItem :=
  let p := extract_title_and_year raw
  let searchNorm := (normalize_title p.1).data
  sortDesc (itemRatioKey searchNorm) (results.filter (acceptsItem searchNorm p.2))

/-- What `pick_plex_match` decides before any user interaction: no match at
all, an automatic acceptance, or an interactive ranked prompt. -/
inductive PickOutcome where
  | noMatch
  | auto (choice : PlexItem)
  | prompt (choices : List PlexItem)
deriving DecidableEq, Repr

/-- The decision logic of `pick_plex_match` (`toolkit/ops.py` lines 78-91):
no good matches yields no match; a single good match, or a best match whose
normalized title equals the normalized query, is auto-accepted; otherwise
the ranked list is shown interactively.  `main.py` lines 1003-1024 test the
same conditions (its extra single-candidate subtitle checks are subsumed by
the `len == 1` case). -/
def pick_plex_outcome (raw : String) (results : List PlexItem) : PickOutcome :=
  if results = [] then .noMatch
  else
    match pick_good_matches raw results with
    | [] => .noMatch
    | best :: rest =>
      if rest = [] ∨ normalizeTitleCore best.title.data = (normalize_title (extract_title_and_year raw).1).data then
        .auto best
      else .prompt (best :: rest)

/-- Bool discriminator for the interactive branch. -/
def isPromptOutcome : PickOutcome → Bool
  | .prompt _ => true
  | _ => false

/-- Python exception classes relevant to the two batch loops. -/
inductive PyExc where
  | attributeError
  | typeError
  | valueError
  | userAbort
  | otherError
deriving DecidableEq, Repr

/-- Oracle for one iteration of a batch loop: what
`library.search(title)` followed by `pick_plex_match(raw, results)`
produced for that raw title - a resolution (possibly no item), or an
exception raised somewhere inside the search or the pick. -/
inductive SearchOutcome where
  | ok (chosen : Option PlexItem)
  | raises (e : PyExc)
deriving DecidableEq, Repr

/-- Accumulated state of a batch run: `found_movies`, `not_found` and
`seen_rating_keys`. -/
structure BatchState where
  found : List PlexItem
  notFound : List String
  seen : List String
deriving DecidableEq, Repr

def initialBatchState : BatchState := ⟨[], [], []⟩

/-- One iteration of `toolkit/ops.py` `_match_movies_in_plex` (lines
305-320): any exception is caught by the per-item `except Exception` and
the raw title is appended to `not_found`; an unresolved title goes to
`not_found`; a resolved item is appended to `found_movies` only when its
rating key is truthy and unseen, and is silently dropped otherwise. -/
def toolkitBatchStep (st : BatchState) (input : String × SearchOutcome) : BatchState :=
  match input.2 with
  | .raises _ => { st with notFound := st.notFound ++ [input.1] }
  | .ok none => { st with notFound := st.notFound ++ [input.1] }
  | .ok (some c) =>
    if c.ratingKey ≠ "" ∧ c.ratingKey ∉ st.seen then
      { st with found := st.found ++ [c], seen := c.ratingKey :: st.seen }
    else st

/-- `toolkit/ops.py` `_match_movies_in_plex` over a whole batch, the search
and pick of each raw title abstracted by its oracle outcome. -/
def match_movies_in_plex (inputs : List (String × SearchOutcome)) : BatchState :=
  inputs.foldl toolkitBatchStep initialBatchState

/-- Result of the `main.py` batch loop (lines 1072-1097): it either runs to
completion, is cancelled as a whole by `UserAbort`, or crashes on an
exception that neither the inner `except (AttributeError, TypeError,
ValueError)` nor the outer `except UserAbort` catches. -/
inductive MainBatchResult where
  | done (st : BatchState)
  | cancelled
  | crashed (e : PyExc)
deriving DecidableEq, Repr

/-- The `main.py` batch loop (lines 1072-1097).  Differences from the
toolkit version: only `AttributeError`, `TypeError` and `ValueError` are
contained per item; `UserAbort` aborts the whole batch; any other
exception propagates out of the loop; and a resolved item with a falsy
rating key is appended without deduplication. -/
def mainBatchLoop : List (String × SearchOutcome) → BatchState → MainBatchResult
  | [], st => .done st
  | (raw, out) :: rest, st =>
    match out with
    | .ok none => mainBatchLoop rest { st with notFound := st.notFound ++ [raw] }
    | .ok (some c) =>
      if c.ratingKey ≠ "" ∧ c.ratingKey ∈ st.seen then mainBatchLoop rest st
      else
        mainBatchLoop rest
          { st with
            found := st.found ++ [c],
            seen := if c.ratingKey ≠ "" then c.ratingKey :: st.seen else st.seen }
    | .raises e =>
      match e with
      | .attributeError => mainBatchLoop rest { st with notFound := st.notFound ++ [raw] }
      | .typeError => mainBatchLoop rest { st with notFound := st.notFound ++ [raw] }
      | .valueError => mainBatchLoop rest { st with notFound := st.notFound ++ [raw] }
      | .userAbort => .cancelled
      | .otherError => .crashed e

/-- Catalog-mutating effects the reconciliation layer can perform. -/
inductive CollectionEffect where
  | deleteExisting
  | appendItems (toAdd : List PlexItem)
  | createCollection (items : List PlexItem)
deriving DecidableEq, Repr

/-- `main.py` `process_and_create_collection` after the matching loop
(lines 1094-1131): a cancelled batch returns before any catalog mutation; a
crashed one propagates its exception before any mutation; a completed one
creates the collection only when it found movies and the user confirms with
"y". -/
def processCollectionEffectsMain (inputs : List (String × SearchOutcome))
    (confirm : String) : List CollectionEffect :=
  match mainBatchLoop inputs initialBatchState with
  | .cancelled => []
  | .crashed _ => []
  | .done st =>
    if st.found = [] then []
    else if (pyStrip confirm.data).map pyLowerChar = ['y'] then [.createCollection st.found]
    else []

/-- `is_escape` (`toolkit/utils.py` lines 14-18, `main.py` lines 46-50):
the stripped, lower-cased value is "esc", "escape" or the escape
character. -/
def is_escape (s : String) : Bool :=
  let v := (pyStrip s.data).map pyLowerChar
  v = "esc".data ∨ v = "escape".data ∨ v = ['\x1b']

/-- Python `str.isdigit()` (ASCII model): nonempty and all digits. -/
def isDigitsL (l : List Char) : Bool :=
  !l.isEmpty && l.all Char.isDigit

/-- `toolkit/utils.py` `read_index_or_skip` (lines 173-188) over the
successive `read_line` results (`none` is the Esc-keypress sentinel of
`read_line`).  It returns `some none` for a skip - and, notably, also for
an escape: `is_escape(val)` and `val.lower() == "s"` land in the same
branch, and a `None` from `read_line` (Esc pressed while typing) does too.
An exhausted input list (`none` overall) stands for the loop blocking
forever on invalid input. -/
def read_index_or_skip (maxIndex : Nat) : List (Option String) → Option (Option Nat)
  | [] => none
  | v :: rest =>
    match v with
    | none => some none
    | some s =>
      let t := pyStrip s.data
      if is_escape (String.mk t) ∨ t.map pyLowerChar = ['s'] then some none
      else if isDigitsL t ∧ 1 ≤ digitsToNat t ∧ digitsToNat t ≤ maxIndex then
        some (some (digitsToNat t))
      else read_index_or_skip maxIndex rest

/-- The three possible user decisions at a `main.py` disambiguation
prompt. -/
inductive IndexChoice where
  | abort
  | skip
  | index (n : Nat)
deriving DecidableEq, Repr

/-- `main.py` `read_index_or_skip` (lines 869-936), line-reading model (the
non-tty branch, lines 877-887; the tty keypress branch raises `UserAbort`
on the ESC key just the same, line 910).  Escape/q/quit raise `UserAbort`
(`abort` here), s/skip return `None` (`skip` here), an in-range number is
returned, anything else re-prompts. -/
def read_index_or_skip_main (maxIndex : Nat) : List String → Option IndexChoice
  | [] => none
  | raw :: rest =>
    let t := pyStrip raw.data
    let lt := t.map pyLowerChar
    if is_escape (String.mk t) ∨ lt = "q".data ∨ lt = "quit".data then some .abort
    else if lt = "s".data ∨ lt = "skip".data then some .skip
    else if isDigitsL t ∧ 1 ≤ digitsToNat t ∧ digitsToNat t ≤ maxIndex then
      some (.index (digitsToNat t))
    else read_index_or_skip_main maxIndex rest

/-- Result of `toolkit/utils.py` `read_menu_choice` (lines 82-92): the
escape/Ctrl-C sentinel string "ESC", or a key from the valid set. -/
inductive MenuChoice where
  | esc
  | key (c : Char)
deriving DecidableEq, Repr

/-- `read_menu_choice` over the successive keypresses: the first escape or
valid key decides; other keys are ignored. -/
def read_menu_choice (valid : List Char) : List Char → Option MenuChoice
  | [] => none
  | k :: rest =>
    if k = '\x1b' ∨ k = '\x03' then some .esc
    else if k ∈ valid then some (.key k)
    else read_menu_choice valid rest

/-- The valid key set offered by `_handle_existing_collection`
(`toolkit/ops.py` lines 225-237) and `CollectionManager
.handle_existing_collection` (`collection_manager.py` lines 345-358):
overwrite/cancel only for a smart collection, append/overwrite/cancel for a
static one. -/
def menu_choices_for (isSmart : Bool) : List Char :=
  if isSmart then ['o', 'O', 'c', 'C'] else ['a', 'A', 'o', 'O', 'c', 'C']

/-- An existing same-named collection as the reconciler sees it: its smart
flag and the rating keys of its current members. -/
structure ExistingCollection where
  title : String
  smart : Bool
  itemKeys : List String
deriving DecidableEq, Repr

/-- What `_handle_existing_collection` tells its caller. -/
inductive HandleAction where
  | proceed
  | stop
deriving DecidableEq, Repr

/-- `toolkit/ops.py` `_handle_existing_collection` (lines 200-288) and the
behaviourally identical `CollectionManager.handle_existing_collection`
(`collection_manager.py` lines 314-379): no existing collection proceeds
directly; otherwise the menu (restricted for smart collections) decides:
cancel/escape stops with no effect, append adds exactly the movies whose
rating key is not yet a member, overwrite deletes the existing collection
and proceeds.  An exhausted keypress list stands for the read loop blocking
forever: no decision, no effect. -/
def handle_existing_collection (existing : Option ExistingCollection)
    (foundMovies : List PlexItem) (keys : List Char) : HandleAction × List CollectionEffect :=
  match existing with
  | none => (.proceed, [])
  | some col =>
    match read_menu_choice (menu_choices_for col.smart) keys with
    | none => (.stop, [])
    | some .esc => (.stop, [])
    | some (.key c) =>
      if c = 'c' ∨ c = 'C' then (.stop, [])
      else if c = 'a' ∨ c = 'A' then
        (.stop, [.appendItems (foundMovies.filter fun m => m.ratingKey ∉ col.itemKeys)])
      else if c = 'o' ∨ c = 'O' then (.proceed, [.deleteExisting])
      else (.stop, [])

/-- The existing-collection branch of `_process_smart_collection`
(`toolkit/ops.py` lines 137-161) and of `CollectionManager
.create_smart_collection` (`collection_manager.py` lines 178-200): when a
same-named collection already exists, only an overwrite confirmation
(`confirm and confirm.lower() == "y"`) deletes it; an escape (`none`), an
empty answer or anything else cancels with no effect. -/
def process_smart_existing (confirm : Option String) : List CollectionEffect :=
  match confirm with
  | some s => if s.data ≠ [] ∧ s.data.map pyLowerChar = "y".data then [.deleteExisting] else []
  | none => []

/-- Bool discriminator for append effects. -/
def isAppendEffect : CollectionEffect → Bool
  | .appendItems _ => true
  | _ => false

/-! Helper lemmas about the character classes and the word-splitting
round trip, leading to idempotence of the toolkit normalizer. -/

theorem char_toNat_ofNat_valid (n : Nat) (h : n < 55296) : (Char.ofNat n).toNat = n := by
  have hv : n.isValidChar := Or.inl h
  rw [Char.ofNat, dif_pos hv]
  rfl

theorem pyLowerChar_toNat (c : Char) (h : 65 ≤ c.toNat ∧ c.toNat ≤ 90) :
    (pyLowerChar c).toNat = c.toNat + 32 := by
  rw [pyLowerChar, if_pos h]
  exact char_toNat_ofNat_valid _ (by omega)

theorem pyLowerChar_not_upper (c : Char) :
    ¬(65 ≤ (pyLowerChar c).toNat ∧ (pyLowerChar c).toNat ≤ 90) := by
  by_cases h : 65 ≤ c.toNat ∧ c.toNat ≤ 90
  · rw [pyLowerChar_toNat c h]
    omega
  · rw [pyLowerChar, if_neg h]
    exact h

theorem pyLowerChar_idem (c : Char) : pyLowerChar (pyLowerChar c) = pyLowerChar c := by
  rw [pyLowerChar, if_neg (pyLowerChar_not_upper c)]

theorem pyIsWordChar_pyLowerChar (c : Char) (h : pyIsWordChar c = true) :
    pyIsWordChar (pyLowerChar c) = true := by
  rw [pyIsWordChar, decide_eq_true_iff] at h ⊢
  by_cases hu : 65 ≤ c.toNat ∧ c.toNat ≤ 90
  · rw [pyLowerChar_toNat c hu]
    omega
  · rw [pyLowerChar, if_neg hu]
    exact h

theorem pyIsSpaceChar_pyLowerChar (c : Char) (h : pyIsSpaceChar c = true) :
    pyLowerChar c = c := by
  rw [pyIsSpaceChar, decide_eq_true_iff] at h
  rw [pyLowerChar, if_neg (by omega)]

theorem pyWords_cons_ne_nil (d : Char) (ds : List Char) (hd : pyIsSpaceChar d = false) :
    pyWords (d :: ds) ≠ [] := by
  rw [pyWords.eq_def]
  simp only [hd]
  cases ds with
  | nil => simp
  | cons e es =>
    by_cases he : pyIsSpaceChar e = true
    · simp [he]
    · simp only [Bool.not_eq_true] at he
      simp only [he]
      cases h : pyWords (e :: es) <;> simp

theorem pyWords_sound (l : List Char) :
    ∀ w ∈ pyWords l, w ≠ [] ∧ ∀ c ∈ w, c ∈ l ∧ pyIsSpaceChar c = false := by
  induction l with
  | nil => simp [pyWords]
  | cons c cs ih =>
    intro w hw
    rw [pyWords.eq_def] at hw
    by_cases hc : pyIsSpaceChar c = true
    · simp only [hc, if_true] at hw
      obtain ⟨h1, h2⟩ := ih w hw
      exact ⟨h1, fun d hd => ⟨List.mem_cons_of_mem _ (h2 d hd).1, (h2 d hd).2⟩⟩
    · simp only [Bool.not_eq_true] at hc
      simp only [hc, Bool.false_eq_true, if_false] at hw
      cases cs with
      | nil =>
        simp only [List.mem_singleton] at hw
        subst hw
        refine ⟨by simp, ?_⟩
        intro d hd
        simp only [List.mem_singleton] at hd
        subst hd
        exact ⟨List.mem_singleton_self _, hc⟩
      | cons e es =>
        by_cases he : pyIsSpaceChar e = true
        · simp only [he, if_true, List.mem_cons] at hw
          rcases hw with hw | hw
          · subst hw
            refine ⟨by simp, ?_⟩
            intro d hd
            simp only [List.mem_singleton] at hd
            subst hd
            exact ⟨List.mem_cons_self _ _, hc⟩
          · obtain ⟨h1, h2⟩ := ih w hw
            exact ⟨h1, fun d hd => ⟨List.mem_cons_of_mem _ (h2 d hd).1, (h2 d hd).2⟩⟩
        · simp only [Bool.not_eq_true] at he
          simp only [he, Bool.false_eq_true, if_false] at hw
          cases hws : pyWords (e :: es) with
          | nil =>
            rw [hws] at hw
            simp only [List.mem_singleton] at hw
            subst hw
            refine ⟨by simp, ?_⟩
            intro d hd
            simp only [List.mem_singleton] at hd
            subst hd
            exact ⟨List.mem_cons_self _ _, hc⟩
          | cons w0 rest =>
            rw [hws] at hw
            simp only [List.mem_cons] at hw
            rcases hw with hw | hw
            · subst hw
              have h0 := ih w0 (by rw [hws]; exact List.mem_cons_self _ _)
              refine ⟨by simp, ?_⟩
              intro d hd
              simp only [List.mem_cons] at hd
              rcases hd with hd | hd
              · subst hd
                exact ⟨List.mem_cons_self _ _, hc⟩
              · exact ⟨List.mem_cons_of_mem _ (h0.2 d hd).1, (h0.2 d hd).2⟩
            · have h0 := ih w (by rw [hws]; exact List.mem_cons_of_mem _ hw)
              exact ⟨h0.1, fun d hd => ⟨List.mem_cons_of_mem _ (h0.2 d hd).1, (h0.2 d hd).2⟩⟩

theorem pyWords_single (w : List Char) (hne : w ≠ [])
    (hns : ∀ c ∈ w, pyIsSpaceChar c = false) : pyWords w = [w] := by
  induction w with
  | nil => exact absurd rfl hne
  | cons c cs ih =>
    have hc : pyIsSpaceChar c = false := hns c (List.mem_cons_self _ _)
    rw [pyWords.eq_def]
    simp only [hc, Bool.false_eq_true, if_false]
    cases cs with
    | nil => rfl
    | cons e es =>
      have he : pyIsSpaceChar e = false := hns e (by simp)
      simp only [he, Bool.false_eq_true, if_false]
      rw [ih (by simp) (fun d hd => hns d (List.mem_cons_of_mem _ hd))]

theorem pyWords_word_space (w : List Char) (rest : List Char) (hne : w ≠ [])
    (hns : ∀ c ∈ w, pyIsSpaceChar c = false) :
    pyWords (w ++ ' ' :: rest) = w :: pyWords rest := by
  induction w with
  | nil => exact absurd rfl hne
  | cons c cs ih =>
    have hc : pyIsSpaceChar c = false := hns c (List.mem_cons_self _ _)
    rw [List.cons_append, pyWords.eq_def]
    simp only [hc, Bool.false_eq_true, if_false]
    cases cs with
    | nil =>
      simp only [List.nil_append]
      have hsp : pyIsSpaceChar ' ' = true := by decide
      simp only [hsp, if_true]
      rw [pyWords.eq_def]
      simp [hsp]
    | cons e es =>
      have he : pyIsSpaceChar e = false := hns e (by simp)
      simp only [List.cons_append, he, Bool.false_eq_true, if_false]
      rw [← List.cons_append, ih (by simp) (fun d hd => hns d (List.mem_cons_of_mem _ hd))]

theorem pyWords_joinSpace (ws : List (List Char))
    (h : ∀ w ∈ ws, w ≠ [] ∧ ∀ c ∈ w, pyIsSpaceChar c = false) :
    pyWords (joinSpace ws) = ws := by
  induction ws with
  | nil => rfl
  | cons w ws ih =>
    cases ws with
    | nil =>
      have h0 := h w (List.mem_cons_self _ _)
      exact pyWords_single w h0.1 h0.2
    | cons w1 ws1 =>
      have h0 := h w (List.mem_cons_self _ _)
      rw [show joinSpace (w :: w1 :: ws1) = w ++ ' ' :: joinSpace (w1 :: ws1) from rfl]
      rw [pyWords_word_space w _ h0.1 h0.2]
      rw [ih (fun u hu => h u (List.mem_cons_of_mem _ hu))]

theorem joinSpace_chars (ws : List (List Char)) (c : Char) (h : c ∈ joinSpace ws) :
    (∃ w ∈ ws, c ∈ w) ∨ c = ' ' := by
  induction ws with
  | nil => simp [joinSpace] at h
  | cons w ws ih =>
    cases ws with
    | nil =>
      simp only [joinSpace] at h
      exact Or.inl ⟨w, List.mem_cons_self _ _, h⟩
    | cons w1 ws1 =>
      rw [show joinSpace (w :: w1 :: ws1) = w ++ ' ' :: joinSpace (w1 :: ws1) from rfl] at h
      rcases List.mem_append.1 h with h | h
      · exact Or.inl ⟨w, List.mem_cons_self _ _, h⟩
      · rcases List.mem_cons.1 h with h | h
        · exact Or.inr h
        · rcases ih h with ⟨u, hu, hcu⟩ | h
          · exact Or.inl ⟨u, List.mem_cons_of_mem _ hu, hcu⟩
          · exact Or.inr h

theorem map_fix_eq_self {f : Char → Char} (l : List Char) (h : ∀ c ∈ l, f c = c) :
    l.map f = l := by
  induction l with
  | nil => rfl
  | cons c cs ih =>
    rw [List.map_cons, h c (List.mem_cons_self _ _),
      ih (fun d hd => h d (List.mem_cons_of_mem _ hd))]

theorem normalizeTitleCore_chars (l : List Char) (c : Char) (h : c ∈ normalizeTitleCore l) :
    (pyIsWordChar c || pyIsSpaceChar c) = true ∧ pyLowerChar c = c := by
  rw [normalizeTitleCore] at h
  by_cases hl : l = []
  · simp [hl] at h
  · simp only [hl, if_false] at h
    rcases joinSpace_chars _ c h with ⟨w, hw, hcw⟩ | hsp
    · have hm := (pyWords_sound _ w hw).2 c hcw
      rcases List.mem_map.1 hm.1 with ⟨c0, hc0, hlc⟩
      have hp0 := (List.mem_filter.1 hc0).2
      constructor
      · rw [Bool.or_eq_true] at hp0
        rcases hp0 with hword | hspace
        · rw [← hlc]
          simp [pyIsWordChar_pyLowerChar c0 hword]
        · rw [← hlc, pyIsSpaceChar_pyLowerChar c0 hspace]
          simp [hspace]
      · rw [← hlc, pyLowerChar_idem]
    · subst hsp
      exact ⟨by decide, by decide⟩

theorem normalizeTitleCore_idem (l : List Char) :
    normalizeTitleCore (normalizeTitleCore l) = normalizeTitleCore l := by
  by_cases hl : l = []
  · simp [hl, normalizeTitleCore]
  · by_cases ho : normalizeTitleCore l = []
    · rw [ho]
      simp [normalizeTitleCore]
    · have hfix : ((normalizeTitleCore l).filter
          (fun c => pyIsWordChar c || pyIsSpaceChar c)).map pyLowerChar =
          normalizeTitleCore l := by
        rw [List.filter_eq_self.2 (fun c hc => (normalizeTitleCore_chars l c hc).1)]
        exact map_fix_eq_self _ (fun c hc => (normalizeTitleCore_chars l c hc).2)
      rw [normalizeTitleCore.eq_def]
      simp only [ho, if_false]
      rw [hfix]
      have hsound := pyWords_sound
        (((l.filter fun c => pyIsWordChar c || pyIsSpaceChar c).map pyLowerChar))
      conv_lhs =>
        rw [normalizeTitleCore.eq_def]
        simp only [hl, if_false]
      rw [pyWords_joinSpace _
        (fun w hw => ⟨(hsound w hw).1, fun c hc => ((hsound w hw).2 c hc).2⟩)]
      rw [normalizeTitleCore.eq_def]
      simp only [hl, if_false]


/-! Membership lemmas for the stable descending sort and the good-matches
list. -/

theorem mem_insertDesc (key : PlexItem → Nat × Nat) (x a : PlexItem) :
    ∀ l, a ∈ insertDesc key x l ↔ a = x ∨ a ∈ l := by
  intro l
  induction l with
  | nil => simp [insertDesc]
  | cons y ys ih =>
    rw [insertDesc]
    split
    · simp only [List.mem_cons, ih]
      tauto
    · simp only [List.mem_cons]

theorem mem_sortDesc_aux (key : PlexItem → Nat × Nat) (a : PlexItem) :
    ∀ (l : List PlexItem) (acc : List PlexItem),
      a ∈ l.foldl (fun acc x => insertDesc key x acc) acc ↔ a ∈ acc ∨ a ∈ l := by
  intro l
  induction l with
  | nil => simp
  | cons x xs ih =>
    intro acc
    rw [List.foldl_cons, ih, mem_insertDesc]
    simp only [List.mem_cons]
    tauto

theorem mem_sortDesc (key : PlexItem → Nat × Nat) (a : PlexItem) (l : List PlexItem) :
    a ∈ sortDesc key l ↔ a ∈ l := by
  rw [sortDesc, mem_sortDesc_aux]
  simp

/-- Ranking never changes membership: an item is a good match exactly when
it is among the search results and passes the per-candidate filter. -/
theorem mem_pick_good_matches (raw : String) (results : List PlexItem) (c : PlexItem) :
    c ∈ pick_good_matches raw results ↔
      c ∈ results ∧
        acceptsItem (normalize_title (extract_title_and_year raw).1).data
          (extract_title_and_year raw).2 c = true := by
  rw [pick_good_matches, mem_sortDesc]
  constructor
  · intro h
    exact ⟨(List.mem_filter.1 h).1, (List.mem_filter.1 h).2⟩
  · intro h
    exact List.mem_filter.2 ⟨h.1, h.2⟩

/-! Facts about the year gate and the fuzzy gate of the per-candidate
filter. -/

theorem acceptsItem_year_reject (snorm : List Char) (qy cy : Int) (c : PlexItem)
    (hc : c.year = some cy) (hq0 : qy ≠ 0) (hc0 : cy ≠ 0) (hd : 1 < (qy - cy).natAbs) :
    acceptsItem snorm (some qy) c = false := by
  have hrej : yearGateReject (some qy) c.year = true := by
    rw [hc, yearGateReject]
    simp [hq0, hc0, hd]
  simp [acceptsItem, hrej]

theorem acceptsItem_no_year_gate (snorm : List Char) (sy : Option Int) (c : PlexItem)
    (h : sy = none ∨ c.year = none) :
    acceptsItem snorm sy c = titleMatchB snorm (normalizeTitleCore c.title.data) := by
  have h1 : yearGateReject sy c.year = false := by
    rcases h with h | h
    · simp [yearGateReject, h]
    · rw [h, yearGateReject]
      rcases sy with _ | qy <;> simp
  have h2 : yearsMatchFlag sy c.year = false := by
    rcases h with h | h
    · simp [yearsMatchFlag, h]
    · rw [h, yearsMatchFlag]
      rcases sy with _ | qy <;> simp
  simp [acceptsItem, h1, h2]

theorem acceptsItem_fuzzy_only (snorm : List Char) (sy : Option Int) (c : PlexItem)
    (hacc : acceptsItem snorm sy c = true)
    (ht : titleMatchB snorm (normalizeTitleCore c.title.data) = false) :
    yearsMatchFlag sy c.year = true ∧
      ratioGtPoint85 (ratioPair snorm (normalizeTitleCore c.title.data)) = true := by
  by_cases hrej : yearGateReject sy c.year = true
  · simp [acceptsItem, hrej] at hacc
  · rw [Bool.not_eq_true] at hrej
    simp only [acceptsItem, hrej, Bool.false_eq_true, if_false, ht, Bool.false_or,
      Bool.and_eq_true] at hacc
    exact hacc

theorem yearsMatchFlag_spec (sy iy : Option Int) (h : yearsMatchFlag sy iy = true) :
    ∃ qy cy, sy = some qy ∧ iy = some cy ∧ qy ≠ 0 ∧ cy ≠ 0 ∧ (qy - cy).natAbs ≤ 1 := by
  rcases sy with _ | qy <;> rcases iy with _ | cy <;>
    simp [yearsMatchFlag] at h
  exact ⟨qy, cy, rfl, rfl, h.1, h.2.1, h.2.2⟩

/-- Invariant carried by the toolkit batch fold: every found movie has a
truthy rating key recorded in `seen`, and found rating keys are pairwise
distinct. -/
def BatchInv (st : BatchState) : Prop :=
  (∀ c ∈ st.found, c.ratingKey ≠ "" ∧ c.ratingKey ∈ st.seen) ∧
    st.found.Pairwise fun a b => a.ratingKey ≠ b.ratingKey

theorem toolkitBatchStep_inv (st : BatchState) (input : String × SearchOutcome)
    (h : BatchInv st) : BatchInv (toolkitBatchStep st input) := by
  obtain ⟨h1, h2⟩ := h
  obtain ⟨raw, out⟩ := input
  rcases out with chosen | e
  · rcases chosen with _ | c
    · exact ⟨h1, h2⟩
    · simp only [toolkitBatchStep]
      split
      · next hcond =>
        constructor
        · intro x hx
          rcases List.mem_append.1 hx with hx | hx
          · exact ⟨(h1 x hx).1, List.mem_cons_of_mem _ (h1 x hx).2⟩
          · rw [List.mem_singleton] at hx
            subst hx
            exact ⟨hcond.1, List.mem_cons_self _ _⟩
        · rw [List.pairwise_append]
          refine ⟨h2, List.pairwise_singleton _ _, ?_⟩
          intro a ha b hb
          rw [List.mem_singleton] at hb
          subst hb
          intro he
          exact hcond.2 (he ▸ (h1 a ha).2)
      · exact ⟨h1, h2⟩
  · exact ⟨h1, h2⟩

theorem toolkitBatch_inv (inputs : List (String × SearchOutcome)) :
    ∀ st : BatchState, BatchInv st → BatchInv (inputs.foldl toolkitBatchStep st) := by
  induction inputs with
  | nil => exact fun st h => h
  | cons i rest ih =>
    intro st h
    rw [List.foldl_cons]
    exact ih _ (toolkitBatchStep_inv st i h)

theorem countP_le_one_of_pairwise (l : List PlexItem) (k : String)
    (h : l.Pairwise fun a b => a.ratingKey ≠ b.ratingKey) :
    l.countP (fun c => c.ratingKey == k) ≤ 1 := by
  induction l with
  | nil => simp
  | cons x xs ih =>
    rcases List.pairwise_cons.1 h with ⟨hx, hxs⟩
    rw [List.countP_cons]
    by_cases hk : x.ratingKey = k
    · have h0 : xs.countP (fun c => c.ratingKey == k) = 0 := by
        rw [List.countP_eq_zero]
        intro a ha
        simp only [beq_iff_eq]
        intro he
        exact hx a ha (by rw [hk, he])
      simp [h0, hk]
    · have hpx : (x.ratingKey == k) = false := by simp [hk]
      rw [hpx]
      simpa using ih hxs

/-! The claims. -/

/-- C1, amended.  The year gate as implemented: for every query and
candidate that both carry a *nonzero* year, a difference of more than one
year excludes the candidate from good matches no matter what the titles
are; and when either year is absent the year gate is not applied - the
candidate is accepted exactly by the title rules.  (The original claim,
stated for all present years, fails at year 0 because Python's
`if search_year and item_year` treats the year 0 as absent; see the
counterexample.) -/
theorem year_gate_nonzero_years :
    (∀ (raw : String) (results : List PlexItem) (c : PlexItem) (qy cy : Int),
       (extract_title_and_year raw).2 = some qy → c.year = some cy →
       qy ≠ 0 → cy ≠ 0 → 1 < (qy - cy).natAbs →
       c ∉ pick_good_matches raw results)
  ∧ (∀ (raw : String) (results : List PlexItem) (c : PlexItem),
       (extract_title_and_year raw).2 = none ∨ c.year = none →
       (c ∈ pick_good_matches raw results ↔
         c ∈ results ∧
           titleMatchB (normalize_title (extract_title_and_year raw).1).data
             (normalizeTitleCore c.title.data) = true)) := by
  constructor
  · intro raw results c qy cy hq hc hq0 hc0 hd hmem
    have hacc := ((mem_pick_good_matches raw results c).1 hmem).2
    rw [hq] at hacc
    rw [acceptsItem_year_reject _ qy cy c hc hq0 hc0 hd] at hacc
    exact Bool.false_ne_true hacc
  · intro raw results c h
    rw [mem_pick_good_matches, acceptsItem_no_year_gate _ _ c h]

/-- C1 witness: the gate excludes "The Matrix Resurrections" (2021) for the
query "The Matrix (1999)", and with no query year the Total Recall
candidate is judged by title logic alone. -/
theorem year_gate_nonzero_years_witness :
    ((⟨"The Matrix Resurrections", some 2021, "m2"⟩ : PlexItem) ∉
      pick_good_matches "The Matrix (1999)" [⟨"The Matrix Resurrections", some 2021, "m2"⟩]) ∧
    ((⟨"Total Recall", some 2012, "t2"⟩ : PlexItem) ∈
        pick_good_matches "Total Recall" [⟨"Total Recall", some 2012, "t2"⟩] ↔
      (⟨"Total Recall", some 2012, "t2"⟩ : PlexItem) ∈
          [(⟨"Total Recall", some 2012, "t2"⟩ : PlexItem)] ∧
        titleMatchB (normalize_title (extract_title_and_year "Total Recall").1).data
          (normalizeTitleCore ("Total Recall" : String).data) = true) :=
  ⟨year_gate_nonzero_years.1 "The Matrix (1999)" _ _ 1999 2021 (by decide) rfl
      (by decide) (by decide) (by decide),
    year_gate_nonzero_years.2 "Total Recall" _ _ (Or.inl (by decide))⟩

/-- C1 counterexample: the query "Alien (0000)" carries the year 0 and the
candidate carries 1990 - both years present, 1990 years apart - yet the
candidate enters good matches, because Python's truthiness test skips the
gate for year 0.  This refutes the claim as stated for all present
years. -/
theorem year_gate_zero_year_counterexample :
    (extract_title_and_year "Alien (0000)").2 = some 0 ∧
    (1 : Nat) < ((0 : Int) - 1990).natAbs ∧
    (⟨"Alien", some 1990, "a1"⟩ : PlexItem) ∈
      pick_good_matches "Alien (0000)" [⟨"Alien", some 1990, "a1"⟩] :=
  ⟨by decide, by decide, by decide⟩

/-- C2.  When none of the three non-fuzzy title rules holds, a candidate is
accepted into good matches only when a tolerant year match occurred (both
years present - indeed nonzero - and at most one year apart) and the
edit-distance similarity ratio of the normalized titles exceeds 0.85; and
the fuzzy-only pair "Time" (no year) versus "No Time to Die" is never
accepted. -/
theorem fuzzy_gate_only_when_years_match :
    (∀ (raw : String) (results : List PlexItem) (c : PlexItem),
       c ∈ pick_good_matches raw results →
       titleMatchB (normalize_title (extract_title_and_year raw).1).data
         (normalizeTitleCore c.title.data) = false →
       ∃ qy cy, (extract_title_and_year raw).2 = some qy ∧ c.year = some cy ∧
         qy ≠ 0 ∧ cy ≠ 0 ∧ (qy - cy).natAbs ≤ 1 ∧
         ratioGtPoint85 (ratioPair (normalize_title (extract_title_and_year raw).1).data
           (normalizeTitleCore c.title.data)) = true)
  ∧ pick_plex_outcome "Time" [⟨"No Time to Die", some 2021, "n1"⟩] = PickOutcome.noMatch := by
  constructor
  · intro raw results c hmem ht
    have hacc := ((mem_pick_good_matches raw results c).1 hmem).2
    obtain ⟨hflag, hratio⟩ := acceptsItem_fuzzy_only _ _ c hacc ht
    obtain ⟨qy, cy, h1, h2, h3, h4, h5⟩ := yearsMatchFlag_spec _ _ hflag
    exact ⟨qy, cy, h1, h2, h3, h4, h5, hratio⟩
  · decide

/-- C2 witness: "Alien (1979)" versus the candidate "Aliens" (1979) is
accepted through the fuzzy path only - no title rule fires - so the
theorem yields the year match and the ratio bound at that input. -/
theorem fuzzy_gate_only_when_years_match_witness :
    ∃ qy cy, (extract_title_and_year "Alien (1979)").2 = some qy ∧
      (⟨"Aliens", some 1979, "a2"⟩ : PlexItem).year = some cy ∧
      qy ≠ 0 ∧ cy ≠ 0 ∧ (qy - cy).natAbs ≤ 1 ∧
      ratioGtPoint85 (ratioPair (normalize_title (extract_title_and_year "Alien (1979)").1).data
        (normalizeTitleCore ("Aliens" : String).data)) = true :=
  fuzzy_gate_only_when_years_match.1 "Alien (1979)" [⟨"Aliens", some 1979, "a2"⟩] _
    (by decide) (by decide)

/-- C3, amended.  For the query "Total Recall" with no year against exactly
the candidates Total Recall (1990) and Total Recall (2012), both pass the
year logic and appear in good matches - but the resolver then
*auto-accepts* the top-ranked candidate (the 1990 one, first in encounter
order at a tied ratio) because its normalized title equals the normalized
query, instead of prompting.  (The spec scenario B expected a prompt, which
contradicts the code's and the spec's own exact-title auto-accept rule.) -/
theorem total_recall_both_match_auto_accept :
    (⟨"Total Recall", some 1990, "tr1990"⟩ : PlexItem) ∈
      pick_good_matches "Total Recall"
        [⟨"Total Recall", some 1990, "tr1990"⟩, ⟨"Total Recall", some 2012, "tr2012"⟩] ∧
    (⟨"Total Recall", some 2012, "tr2012"⟩ : PlexItem) ∈
      pick_good_matches "Total Recall"
        [⟨"Total Recall", some 1990, "tr1990"⟩, ⟨"Total Recall", some 2012, "tr2012"⟩] ∧
    pick_plex_outcome "Total Recall"
        [⟨"Total Recall", some 1990, "tr1990"⟩, ⟨"Total Recall", some 2012, "tr2012"⟩] =
      PickOutcome.auto ⟨"Total Recall", some 1990, "tr1990"⟩ :=
  ⟨by decide, by decide, by decide⟩

/-- C3 counterexample: on that very input the resolver does not present an
interactive prompt - the outcome is an automatic acceptance, refuting the
claim's "disambiguation prompt is required" part. -/
theorem total_recall_no_prompt :
    isPromptOutcome (pick_plex_outcome "Total Recall"
        [⟨"Total Recall", some 1990, "tr1990"⟩, ⟨"Total Recall", some 2012, "tr2012"⟩]) =
      false := by
  decide

/-- C4.  Deduplication invariant of the toolkit batch matcher
`_match_movies_in_plex`: for every input batch and every rating key, the
matched output contains at most one item with that key; and when a raw
title resolves to an item whose key is already accepted, the step leaves
the state untouched - the resolution is added neither to the matched list
nor to the unmatched list. -/
theorem batch_dedup_invariant :
    (∀ (inputs : List (String × SearchOutcome)) (k : String),
       (match_movies_in_plex inputs).found.countP (fun c => c.ratingKey == k) ≤ 1)
  ∧ (∀ (st : BatchState) (raw : String) (c : PlexItem),
       c.ratingKey ∈ st.seen → toolkitBatchStep st (raw, SearchOutcome.ok (some c)) = st) := by
  constructor
  · intro inputs k
    have h := toolkitBatch_inv inputs initialBatchState
      ⟨by simp [initialBatchState], by simp [initialBatchState]⟩
    exact countP_le_one_of_pairwise _ k h.2
  · intro st raw c h
    simp only [toolkitBatchStep]
    rw [if_neg]
    intro hcond
    exact hcond.2 h

/-- C4 witness: the spec's own dedup example - "Alien (1979)" and "Alien"
both resolving to the same catalog item - yields at most one matched entry
for its key, and the duplicate-resolution step is the identity on a state
that has already accepted the key. -/
theorem batch_dedup_invariant_witness :
    (match_movies_in_plex [("Alien (1979)", SearchOutcome.ok (some ⟨"Alien", some 1979, "k1"⟩)),
        ("Alien", SearchOutcome.ok (some ⟨"Alien", some 1979, "k1"⟩))]).found.countP
      (fun c => c.ratingKey == "k1") ≤ 1 ∧
    toolkitBatchStep ⟨[⟨"Alien", some 1979, "k1"⟩], [], ["k1"]⟩
        ("Alien", SearchOutcome.ok (some ⟨"Alien", some 1979, "k1"⟩)) =
      ⟨[⟨"Alien", some 1979, "k1"⟩], [], ["k1"]⟩ :=
  ⟨batch_dedup_invariant.1 _ "k1", batch_dedup_invariant.2 _ "Alien" _ (by decide)⟩

/-- C5.  The claim is right about the intended behaviour and about
`main.py` (Esc at a disambiguation prompt raises `UserAbort`, the whole
batch is cancelled and no collection-mutating call follows), but the
toolkit implementation diverges: its `read_index_or_skip` returns the skip
sentinel for an escape - "esc", "s" and an Esc keypress are
indistinguishable to the caller - even though its own prompt says "Esc to
cancel" and `ops.py` carries a dead `except UserAbort` handler.  The
conjuncts evaluate both implementations at the failing input. -/
theorem escape_cancel_divergence :
    read_index_or_skip 2 [some "esc"] = some none ∧
    read_index_or_skip 2 [some "s"] = some none ∧
    read_index_or_skip 2 [none] = some none ∧
    read_index_or_skip_main 2 ["esc"] = some IndexChoice.abort ∧
    (∀ (st : BatchState) (raw : String) (rest : List (String × SearchOutcome)),
       mainBatchLoop ((raw, SearchOutcome.raises PyExc.userAbort) :: rest) st =
         MainBatchResult.cancelled) ∧
    processCollectionEffectsMain [("The Matrix", SearchOutcome.raises PyExc.userAbort)] "y" =
      [] :=
  ⟨by decide, by decide, by decide, by decide, fun st raw rest => rfl, by decide⟩

/-- C6, amended.  Per-item failure containment holds in the toolkit batch
matcher for *every* exception (its per-item handler is `except Exception`):
the raw title is appended to the unmatched list and the fold simply
continues with the next title.  In `main.py` only `AttributeError`,
`TypeError` and `ValueError` are contained; any other per-item error (a
network failure, say) propagates and aborts the batch - see the
counterexample. -/
theorem per_item_error_containment :
    (∀ inputs : List (String × SearchOutcome),
       match_movies_in_plex inputs = inputs.foldl toolkitBatchStep initialBatchState)
  ∧ (∀ (st : BatchState) (raw : String) (e : PyExc),
       toolkitBatchStep st (raw, SearchOutcome.raises e) =
         { st with notFound := st.notFound ++ [raw] })
  ∧ (∀ (st : BatchState) (raw : String) (rest : List (String × SearchOutcome)),
       mainBatchLoop ((raw, SearchOutcome.raises PyExc.attributeError) :: rest) st =
         mainBatchLoop rest { st with notFound := st.notFound ++ [raw] } ∧
       mainBatchLoop ((raw, SearchOutcome.raises PyExc.typeError) :: rest) st =
         mainBatchLoop rest { st with notFound := st.notFound ++ [raw] } ∧
       mainBatchLoop ((raw, SearchOutcome.raises PyExc.valueError) :: rest) st =
         mainBatchLoop rest { st with notFound := st.notFound ++ [raw] }) :=
  ⟨fun _ => rfl, fun _ _ _ => rfl, fun _ _ _ => ⟨rfl, rfl, rfl⟩⟩

/-- C6 counterexample: in the `main.py` loop an error outside the three
caught classes crashes the whole batch - the failing title is not recorded
as unmatched and the following title is never processed - refuting the
claim that any search error is caught locally and the batch never
aborted. -/
theorem main_batch_network_error_crash :
    mainBatchLoop [("Alien", SearchOutcome.raises PyExc.otherError),
        ("Blade Runner", SearchOutcome.ok (some ⟨"Blade Runner", some 1982, "b1"⟩))]
      initialBatchState = MainBatchResult.crashed PyExc.otherError := by
  decide

/-- C7, amended.  The toolkit normalizer is idempotent for every input
string; the `main.py` normalizer is not (its leading-article stripping and
abbreviation expansion can fire again on their own output) - see the
counterexample. -/
theorem normalize_title_toolkit_idem (s : String) :
    normalize_title (normalize_title s) = normalize_title s := by
  show String.mk (normalizeTitleCore (String.mk (normalizeTitleCore s.data)).data) = _
  rw [show (String.mk (normalizeTitleCore s.data)).data = normalizeTitleCore s.data from rfl]
  rw [normalizeTitleCore_idem]
  rfl

/-- C7 counterexample: `main.py`'s normalizer maps "The The Matrix" to
"the matrix" and maps that in turn to "matrix", so it is not idempotent,
refuting the claim for that cited implementation. -/
theorem normalize_title_main_not_idem :
    normalize_title_main (normalize_title_main "The The Matrix") ≠
      normalize_title_main "The The Matrix" := by
  decide

/-- C8, amended.  No single normalizer produces both quoted examples: the
toolkit normalizer (no abbreviation expansion, no article stripping) gives
"the matrix" and "st louis blues"; the `main.py` normalizer (expansion and
article stripping) gives "matrix" and "street louis blues". -/
theorem normalize_title_examples_amended :
    normalize_title "The Matrix!" = "the matrix" ∧
    normalize_title "St. Louis Blues" = "st louis blues" ∧
    normalize_title_main "The Matrix!" = "matrix" ∧
    normalize_title_main "St. Louis Blues" = "street louis blues" :=
  ⟨by decide, by decide, by decide, by decide⟩

/-- C8 counterexample: the toolkit normalizer does not expand "St." and the
`main.py` normalizer strips the leading article of "The Matrix!", so each
implementation refutes one half of the claimed pair of equations. -/
theorem normalize_title_examples_counterexample :
    normalize_title "St. Louis Blues" ≠ "street louis blues" ∧
    normalize_title_main "The Matrix!" ≠ "the matrix" :=
  ⟨by decide, by decide⟩

/-- Any key returned by `read_menu_choice` belongs to the valid set it was
called with. -/
theorem read_menu_choice_mem (valid : List Char) :
    ∀ (keys : List Char) (c : Char),
      read_menu_choice valid keys = some (MenuChoice.key c) → c ∈ valid := by
  intro keys
  induction keys with
  | nil => intro c h; simp [read_menu_choice] at h
  | cons k rest ih =>
    intro c h
    rw [read_menu_choice] at h
    by_cases h1 : k = '\x1b' ∨ k = '\x03'
    · rw [if_pos h1] at h
      simp at h
    · rw [if_neg h1] at h
      by_cases h2 : k ∈ valid
      · rw [if_pos h2] at h
        simp only [Option.some.injEq, MenuChoice.key.injEq] at h
        exact h ▸ h2
      · rw [if_neg h2] at h
        exact ih c h

/-- C9.  When the existing same-named collection is smart, the menu offered
is exactly Overwrite/Cancel (valid keys o, O, c, C) and, for every
keypress sequence, the handler never performs an append effect. -/
theorem smart_collection_no_append (col : ExistingCollection) (found : List PlexItem)
    (keys : List Char) (h : col.smart = true) :
    menu_choices_for true = ['o', 'O', 'c', 'C'] ∧
    ((handle_existing_collection (some col) found keys).2.all
      fun e => !isAppendEffect e) = true := by
  refine ⟨rfl, ?_⟩
  simp only [handle_existing_collection, h]
  cases hr : read_menu_choice (menu_choices_for true) keys with
  | none => simp
  | some mc =>
    cases mc with
    | esc => simp
    | key c =>
      have hc := read_menu_choice_mem _ keys c hr
      rw [menu_choices_for, if_pos rfl] at hc
      simp only [List.mem_cons, List.mem_singleton, List.not_mem_nil, or_false] at hc
      rcases hc with rfl | rfl | rfl | rfl <;> simp [isAppendEffect]

/-- C9 witness: an existing smart collection "A24", a keypress sequence
that even tries the (invalid) append key first - no append effect is ever
produced. -/
theorem smart_collection_no_append_witness :
    menu_choices_for true = ['o', 'O', 'c', 'C'] ∧
    ((handle_existing_collection (some ⟨"A24", true, []⟩)
        [⟨"Lady Bird", some 2017, "lb"⟩] ['a', 'o']).2.all
      fun e => !isAppendEffect e) = true :=
  smart_collection_no_append ⟨"A24", true, []⟩ [⟨"Lady Bird", some 2017, "lb"⟩] ['a', 'o'] rfl

/-- C10.  The delete of an existing collection happens only under explicit
overwrite consent: in the append/overwrite/cancel handler a delete effect
forces the menu choice to have been the key o or O; a returned a/A/c/C key
yields no delete; an escape cancels with no effect at all (membership
untouched); and on the smart-filter path a delete forces a confirmation
string that lower-cases to "y". -/
theorem delete_only_on_overwrite_consent :
    (∀ (existing : Option ExistingCollection) (found : List PlexItem) (keys : List Char),
       CollectionEffect.deleteExisting ∈ (handle_existing_collection existing found keys).2 →
       ∃ col, existing = some col ∧
         (read_menu_choice (menu_choices_for col.smart) keys = some (MenuChoice.key 'o') ∨
          read_menu_choice (menu_choices_for col.smart) keys = some (MenuChoice.key 'O')))
  ∧ (∀ (col : ExistingCollection) (found : List PlexItem) (keys : List Char) (c : Char),
       read_menu_choice (menu_choices_for col.smart) keys = some (MenuChoice.key c) →
       c = 'a' ∨ c = 'A' ∨ c = 'c' ∨ c = 'C' →
       CollectionEffect.deleteExisting ∉ (handle_existing_collection (some col) found keys).2)
  ∧ (∀ (col : ExistingCollection) (found : List PlexItem) (keys : List Char),
       read_menu_choice (menu_choices_for col.smart) keys = some MenuChoice.esc →
       (handle_existing_collection (some col) found keys).2 = [])
  ∧ (∀ confirm : Option String,
       CollectionEffect.deleteExisting ∈ process_smart_existing confirm →
       ∃ s, confirm = some s ∧ s.data.map pyLowerChar = "y".data) := by
  refine ⟨?_, ?_, ?_, ?_⟩
  · intro existing found keys hmem
    cases existing with
    | none => simp [handle_existing_collection] at hmem
    | some col =>
      refine ⟨col, rfl, ?_⟩
      cases hr : read_menu_choice (menu_choices_for col.smart) keys with
      | none => simp [handle_existing_collection, hr] at hmem
      | some mc =>
        cases mc with
        | esc => simp [handle_existing_collection, hr] at hmem
        | key c =>
          simp only [handle_existing_collection, hr] at hmem
          split at hmem
          · simp at hmem
          · split at hmem
            · simp at hmem
            · split at hmem
              · next h3 =>
                rcases h3 with rfl | rfl
                · exact Or.inl rfl
                · exact Or.inr rfl
              · simp at hmem
  · intro col found keys c hr hc hmem
    simp only [handle_existing_collection, hr] at hmem
    rcases hc with rfl | rfl | rfl | rfl <;> simp at hmem
  · intro col found keys hr
    simp [handle_existing_collection, hr]
  · intro confirm hmem
    cases confirm with
    | none => simp [process_smart_existing] at hmem
    | some s =>
      simp only [process_smart_existing] at hmem
      by_cases hy : s.data ≠ [] ∧ s.data.map pyLowerChar = "y".data
      · exact ⟨s, rfl, hy.2⟩
      · rw [if_neg hy] at hmem
        simp at hmem

/-- C10 witness: a delete effect produced for the static collection
"Pixar" pins the menu choice to the overwrite key. -/
theorem delete_only_on_overwrite_consent_witness :
    ∃ col, (some (⟨"Pixar", false, []⟩ : ExistingCollection)) = some col ∧
      (read_menu_choice (menu_choices_for col.smart) ['o'] = some (MenuChoice.key 'o') ∨
       read_menu_choice (menu_choices_for col.smart) ['o'] = some (MenuChoice.key 'O')) :=
  delete_only_on_overwrite_consent.1 (some ⟨"Pixar", false, []⟩) [] ['o'] (by decide)
